import Mathlib

/-!
Verification of the Atom-to-RSS feed converter
(`src/atom-to-rss-bald-to-bran.py`, class `AtomToRSSConverterApp`).

The core of the program is `process_feed` (lines 66-197): it parses the input
text as XML with BeautifulSoup, extracts channel metadata (`title`, first
`link` with `rel="alternate"`, `subtitle`), converts every `entry` element to
an `item` element (title, alternate link, `pubDate` obtained from
`published`/`updated` via `dateutil.parser.isoparse` and
`email.utils.format_datetime`, and `content:encoded` wrapped in a CDATA
block), and reports the number of items.

This file embeds that pipeline shallowly:
* XML trees are the inductive `Node`; BeautifulSoup's `find`, `find_all`,
  `.string` and `get_text(strip=True)` are modelled on it following the
  library's documented semantics (descendant search in document order at any
  depth; `.string` follows chains of sole children; `get_text(strip=True)`
  concatenates the stripped descendant strings).  A found tag is always
  truthy (`Tag.__bool__` is `True`), so the source's `if tag:` tests are
  modelled as `Option.isSome` tests.
* `dateutil.parser.isoparse` is translated from `isoparser.py`
  (`_parse_isodate_common`, `_parse_isodate_uncommon`, `_parse_isotime`,
  `_parse_tzstr`), and `email.utils.format_datetime` from
  `email/utils.py` (`_format_timetuple_and_zone`).
* the entry loop and channel construction of `process_feed` become
  `processEntry` and `processFeed`.
-/

/-! ## Python string primitives -/

/-- The characters `str.strip()` removes: ASCII whitespace as used by Python
(space, tab, newline, carriage return, vertical tab, form feed). -/
def isPyWs (c : Char) : Bool :=
  c = ' ' ∨ c = '\t' ∨ c = '\n' ∨ c = '\r' ∨ c = '\x0b' ∨ c = '\x0c'

/-- Python `str.strip()` on a list of characters. -/
def pyStripList (cs : List Char) : List Char :=
  ((cs.dropWhile isPyWs).reverse.dropWhile isPyWs).reverse

/-- Python `str.strip()`. -/
def pyStrip (s : String) : String :=
  String.mk (pyStripList s.toList)

/-- Digits of a decimal numeral; `none` when the list is empty or contains a
non-digit. -/
def digitsToNat (cs : List Char) : Option Nat :=
  if cs.isEmpty ∨ cs.any (fun c => ¬ c.isDigit) then none
  else some (cs.foldl (fun a c => a * 10 + (c.toNat - '0'.toNat)) 0)

/-- Python `int(...)` applied to a short ASCII slice: optional surrounding
whitespace, an optional sign, then decimal digits; `none` when the argument
does not parse (which in the source raises `ValueError`). -/
def pyInt (cs : List Char) : Option Int :=
  match pyStripList cs with
  | '+' :: ds => (digitsToNat ds).map Int.ofNat
  | '-' :: ds => (digitsToNat ds).map (fun n => -(Int.ofNat n))
  | ds => (digitsToNat ds).map Int.ofNat

/-! ## XML trees (the BeautifulSoup data model) -/

/-- A parsed XML node: a text node (`NavigableString`) or an element (`Tag`)
with a name, attributes and children in document order. -/
inductive Node where
  | text : String → Node
  | elem : String → List (String × String) → List Node → Node

/-- The children of a node (`Tag.contents`); text nodes have none. -/
def childrenOf : Node → List Node
  | .text _ => []
  | .elem _ _ cs => cs

/-- The tag name of an element node. -/
def nodeName : Node → Option String
  | .text _ => none
  | .elem n _ _ => some n

/-- Attribute lookup (`tag["name"]` / `tag.has_attr("name")`). -/
def attrOf (n : Node) (key : String) : Option String :=
  match n with
  | .text _ => none
  | .elem _ attrs _ => (attrs.find? (fun p => p.1 = key)).map (fun p => p.2)

/-- The match predicate of `soup.find(name)` / `soup.find_all(name)`:
an element whose tag name equals `nm`. -/
def matchesName (nm : String) : Node → Bool
  | .text _ => false
  | .elem n _ _ => n = nm

/-- The match predicate of `find("link", rel="alternate")`: an element with
the given name whose `rel` attribute equals the given value. -/
def matchesNameRel (nm relValue : String) (n : Node) : Bool :=
  matchesName nm n ∧ attrOf n "rel" = some relValue

/-- All descendants of the nodes of a list, each node followed by its own
descendants, in document order (the order of BeautifulSoup's
`.descendants`). -/
def descList : List Node → List Node
  | [] => []
  | .text s :: cs => .text s :: descList cs
  | .elem n a ch :: cs => .elem n a ch :: (descList ch ++ descList cs)

/-- BeautifulSoup `find`: the first node among the given nodes and their
descendants, in document order, that satisfies `p`.  `tag.find(...)`
searches `findFirst p (childrenOf tag)`; `soup.find(...)` searches
`findFirst p [root]`.  `findFirst_eq_find?` identifies it with the first
match in the pre-order descendant list. -/
def findFirst (p : Node → Bool) : List Node → Option Node
  | [] => none
  | .text s :: cs =>
    if p (.text s) then some (.text s) else findFirst p cs
  | .elem n a ch :: cs =>
    if p (.elem n a ch) then some (.elem n a ch)
    else
      match findFirst p ch with
      | some r => some r
      | none => findFirst p cs

/-- BeautifulSoup `find_all`: every node among the given nodes and their
descendants, in document order, that satisfies `p` (`findAll_eq_filter`
identifies it with filtering the pre-order descendant list). -/
def findAll (p : Node → Bool) : List Node → List Node
  | [] => []
  | .text s :: cs =>
    (if p (.text s) then [Node.text s] else []) ++ findAll p cs
  | .elem n a ch :: cs =>
    (if p (.elem n a ch) then [Node.elem n a ch] else []) ++
      (findAll p ch ++ findAll p cs)

/-- The text-node strings below the given nodes, in document order
(BeautifulSoup `_all_strings`). -/
def allStrings : List Node → List String
  | [] => []
  | .text s :: cs => s :: allStrings cs
  | .elem _ _ ch :: cs => allStrings ch ++ allStrings cs

/-- BeautifulSoup `tag.get_text(strip=True)`: each descendant string
stripped, concatenated in document order. -/
def getTextStrip (n : Node) : String :=
  String.join ((allStrings (childrenOf n)).map pyStrip)

/-- BeautifulSoup `tag.string`: the unique text node reached by following
sole children (`none` when a node on the way has zero or several
children). -/
def tagString : Node → Option String
  | .text s => some s
  | .elem _ _ [c] => tagString c
  | .elem _ _ _ => none


/-! ## CDATA wrapping (`process_feed` lines 172-176)

The source computes
`safe_html = raw_html.replace("]]>", "]]]]><![CDATA[>")` and
`cdata_str = f"<![CDATA[{safe_html}]]>"`. -/

/-- `str.replace("]]>", "]]]]><![CDATA[>")` specialised to the literal
pattern of the source: left-to-right, non-overlapping replacement. -/
def escapeCdata : List Char → List Char
  | ']' :: ']' :: '>' :: rest =>
    ']' :: ']' :: ']' :: ']' :: '>' :: '<' :: '!' :: '[' :: 'C' :: 'D' ::
      'A' :: 'T' :: 'A' :: '[' :: '>' :: escapeCdata rest
  | c :: rest => c :: escapeCdata rest
  | [] => []

/-- The nine characters opening a CDATA section. -/
def cdataHeader : List Char :=
  ['<', '!', '[', 'C', 'D', 'A', 'T', 'A', '[']

/-- The three characters closing a CDATA section. -/
def cdataTerm : List Char := [']', ']', '>']

/-- `cdata_str = f"<![CDATA[{safe_html}]]>"` built from `raw_html`. -/
def cdataWrap (raw : String) : String :=
  String.mk (cdataHeader ++ escapeCdata raw.toList ++ cdataTerm)

/-- Drop a literal `<![CDATA[` opener, or fail. -/
def dropCdataHeader : List Char → Option (List Char)
  | '<' :: '!' :: '[' :: 'C' :: 'D' :: 'A' :: 'T' :: 'A' :: '[' :: rest =>
    some rest
  | _ => none

/-- Scan a CDATA section body for its first `]]>` terminator, per the XML
rule that a CDATA section ends at the first occurrence of `]]>`.  Returns
the contents before the terminator and the input after it. -/
def scanCdata : List Char → Option (List Char × List Char)
  | ']' :: ']' :: '>' :: rest => some ([], rest)
  | c :: rest => (scanCdata rest).map (fun p => (c :: p.1, p.2))
  | [] => none

/-- Decode the body of a (possibly multi-part) CDATA block: the contents of
the current section, followed — when input remains — by further complete
`<![CDATA[...]]>` sections; anything else fails.  Fuelled for structural
recursion. -/
def decodeCdataBody : Nat → List Char → Option (List Char)
  | 0, _ => none
  | fuel + 1, inp =>
    match scanCdata inp with
    | none => none
    | some (c, r) =>
      if r.isEmpty then some c
      else
        match dropCdataHeader r with
        | none => none
        | some body => (decodeCdataBody fuel body).map (fun t => c ++ t)

/-- Decode a literal-text (CDATA) block per XML rules: one or more
back-to-back `<![CDATA[...]]>` sections whose contents are concatenated. -/
def cdataDecode (s : String) : Option String :=
  match dropCdataHeader s.toList with
  | none => none
  | some body => (decodeCdataBody (s.length + 1) body).map String.mk

/-! ## Proleptic Gregorian calendar (Python `datetime.date`) -/

/-- `calendar.isleap` / the Gregorian leap-year rule used by `datetime`. -/
def isLeap (y : Int) : Bool :=
  y % 4 = 0 ∧ (y % 100 ≠ 0 ∨ y % 400 = 0)

/-- Days in a month of the proleptic Gregorian calendar. -/
def daysInMonth (y m : Int) : Int :=
  if m = 2 then (if isLeap y then 29 else 28)
  else if m = 4 ∨ m = 6 ∨ m = 9 ∨ m = 11 then 30
  else 31

/-- Days in the months strictly before month `m` of year `y`. -/
def daysBeforeMonth (y : Nat) (m : Nat) : Nat :=
  (List.range (m - 1)).foldl
    (fun acc i => acc + (daysInMonth (Int.ofNat y) (Int.ofNat (i + 1))).toNat) 0

/-- `date.toordinal()`: day number of a valid Gregorian date, with
0001-01-01 as day 1. -/
def toOrdinal (y m d : Nat) : Nat :=
  365 * (y - 1) + (y - 1) / 4 - (y - 1) / 100 + (y - 1) / 400 +
    daysBeforeMonth y m + d

/-- `date.fromordinal`: inverse of `toOrdinal` on the valid range, via the
standard civil-from-days computation (era arithmetic over the 146097-day
Gregorian cycle, with epoch 0000-03-01 so all quantities stay natural). -/
def fromOrdinal (ord : Nat) : Nat × Nat × Nat :=
  let n := ord + 305
  let era := n / 146097
  let doe := n % 146097
  let yoe := (doe - doe / 1460 + doe / 36524 - doe / 146096) / 365
  let y0 := yoe + era * 400
  let doy := doe - (365 * yoe + yoe / 4 - yoe / 100)
  let mp := (5 * doy + 2) / 153
  let d := doy - (153 * mp + 2) / 5 + 1
  let m := if mp < 10 then mp + 3 else mp - 9
  (if m ≤ 2 then y0 + 1 else y0, m, d)

/-- `date.weekday()`: day of the week with Monday = 0 (0001-01-01 was a
Monday), i.e. `timetuple().tm_wday` as used by `format_datetime`. -/
def weekdayOf (y m d : Nat) : Nat :=
  (toOrdinal y m d - 1) % 7

example : weekdayOf 2017 6 28 = 2 := by decide
example : weekdayOf 2020 1 1 = 2 := by decide
example : weekdayOf 1970 1 1 = 3 := by decide
example : weekdayOf 2000 1 1 = 5 := by decide
example : fromOrdinal (toOrdinal 2017 6 28) = (2017, 6, 28) := by decide
example : fromOrdinal (toOrdinal 2020 2 29) = (2020, 2, 29) := by decide
example : fromOrdinal (toOrdinal 9999 12 31) = (9999, 12, 31) := by decide
example : fromOrdinal 1 = (1, 1, 1) := by decide

/-! ## Python `datetime.datetime` values -/

/-- A Python `datetime.datetime` as built by `isoparse`: field values plus
an optional fixed UTC offset in minutes (`None` tzinfo is `none`; `tz.UTC`
and `tz.tzoffset` are `some` minutes). -/
structure PyDateTime where
  year : Nat
  month : Nat
  day : Nat
  hour : Nat
  minute : Nat
  second : Nat
  usec : Nat
  tzMinutes : Option Int
deriving DecidableEq, Repr

/-- The `datetime(...)` constructor's range validation (`MINYEAR = 1`,
`MAXYEAR = 9999`; a `ValueError` is `none`). -/
def mkDateTime (y m d h mi s us : Int) (tz : Option Int) :
    Option PyDateTime :=
  if 1 ≤ y ∧ y ≤ 9999 ∧ 1 ≤ m ∧ m ≤ 12 ∧ 1 ≤ d ∧ d ≤ daysInMonth y m ∧
      0 ≤ h ∧ h ≤ 23 ∧ 0 ≤ mi ∧ mi ≤ 59 ∧ 0 ≤ s ∧ s ≤ 59 ∧
      0 ≤ us ∧ us ≤ 999999 then
    some ⟨y.toNat, m.toNat, d.toNat, h.toNat, mi.toNat, s.toNat, us.toNat, tz⟩
  else none

/-- `dt + timedelta(days=1)` on the date part (used for hour 24);
`OverflowError` past 9999-12-31 is `none`. -/
def addOneDay (dt : PyDateTime) : Option PyDateTime :=
  let ord := toOrdinal dt.year dt.month dt.day + 1
  if ord > 3652059 then none
  else
    let c := fromOrdinal ord
    some { dt with year := c.1, month := c.2.1, day := c.2.2 }

/-! ## `dateutil.parser.isoparse`

Translated from `dateutil/parser/isoparser.py` with the default separator
(`sep=None`, accepting any single character between date and time).  Every
`ValueError` raised there — or by the final `datetime(...)` construction —
is `none` here, matching the source's `except Exception: pass`. -/

/-- The slice `cs[pos:pos+n]`. -/
def sliceN (cs : List Char) (pos n : Nat) : List Char :=
  (cs.drop pos).take n

/-- A character that starts a time-zone designator (`-+Zz` boundary test in
`_parse_isotime`). -/
def isTzStart (c : Char) : Bool :=
  c = '-' ∨ c = '+' ∨ c = 'Z' ∨ c = 'z'

/-- `_parse_tzstr`: `Z`/`z`, `±HH`, `±HHMM` or `±HH:MM`, as an offset in
minutes (UTC-equivalent offsets collapse to 0 just as they collapse to
`tz.UTC`). -/
def parseTzStr (cs : List Char) : Option Int :=
  if cs = ['Z'] ∨ cs = ['z'] then some 0
  else if ¬ (cs.length = 3 ∨ cs.length = 5 ∨ cs.length = 6) then none
  else
    let mult? : Option Int :=
      match cs.head? with
      | some '-' => some (-1)
      | some '+' => some 1
      | _ => none
    match mult? with
    | none => none
    | some mult =>
      match pyInt (sliceN cs 1 2) with
      | none => none
      | some hours =>
        let minutes? : Option Int :=
          if cs.length = 3 then some 0
          else pyInt (cs.drop (if cs.get? 3 = some ':' then 4 else 3))
        match minutes? with
        | none => none
        | some minutes =>
          if hours = 0 ∧ minutes = 0 then some 0
          else if minutes > 59 ∨ hours > 23 then none
          else some (mult * (hours * 60 + minutes))

/-- `_parse_isotime` after the fractional-second field: only the end of the
string or a time-zone designator may remain. -/
def isoTimeEnd (cs : List Char) (pos : Nat) (h mi s us : Int) :
    Option (Int × Int × Int × Int × Option Int) :=
  if pos ≥ cs.length then some (h, mi, s, us, none)
  else
    match cs.get? pos with
    | some c =>
      if isTzStart c then
        (parseTzStr (cs.drop pos)).map (fun tz => (h, mi, s, us, some tz))
      else none
    | none => none

/-- `_parse_isotime` at the fractional-second field (`comp == 3`): the
regex `[\.,]([0-9]+)`, truncated to six digits and scaled to
microseconds. -/
def isoTimeFromFrac (cs : List Char) (pos : Nat) (h mi s : Int) :
    Option (Int × Int × Int × Int × Option Int) :=
  if pos ≥ cs.length then some (h, mi, s, 0, none)
  else
    match cs.get? pos with
    | some c =>
      if isTzStart c then
        (parseTzStr (cs.drop pos)).map (fun tz => (h, mi, s, 0, some tz))
      else if c = '.' ∨ c = ',' then
        let digits := (cs.drop (pos + 1)).takeWhile Char.isDigit
        if digits.isEmpty then none
        else
          let usStr := digits.take 6
          match digitsToNat usStr with
          | none => none
          | some us0 =>
            let us : Int := Int.ofNat (us0 * 10 ^ (6 - usStr.length))
            isoTimeEnd cs (pos + 1 + digits.length) h mi s us
      else none
    | none => none

/-- `_parse_isotime` at the second field (`comp == 2`): a `:` separator is
required exactly when one was used before the minute. -/
def isoTimeFromSecond (cs : List Char) (pos : Nat) (hasSep : Bool)
    (h mi : Int) : Option (Int × Int × Int × Int × Option Int) :=
  if pos ≥ cs.length then some (h, mi, 0, 0, none)
  else
    match cs.get? pos with
    | some c =>
      if isTzStart c then
        (parseTzStr (cs.drop pos)).map (fun tz => (h, mi, 0, 0, some tz))
      else
        let pos1 := if hasSep then pos + 1 else pos
        if hasSep ∧ c ≠ ':' then none
        else
          match pyInt (sliceN cs pos1 2) with
          | none => none
          | some s => isoTimeFromFrac cs (pos1 + 2) h mi s
    | none => none

/-- `_parse_isotime` at the minute field (`comp == 1`): an optional `:`
separator is recorded for later consistency. -/
def isoTimeFromMinute (cs : List Char) (pos : Nat) (h : Int) :
    Option (Int × Int × Int × Int × Option Int) :=
  if pos ≥ cs.length then some (h, 0, 0, 0, none)
  else
    match cs.get? pos with
    | some c =>
      if isTzStart c then
        (parseTzStr (cs.drop pos)).map (fun tz => (h, 0, 0, 0, some tz))
      else
        let hasSep := c = ':'
        let pos1 := if hasSep then pos + 1 else pos
        match pyInt (sliceN cs pos1 2) with
        | none => none
        | some mi => isoTimeFromSecond cs (pos1 + 2) hasSep h mi
    | none => none

/-- `_parse_isotime`: hour, optional minute/second/fraction, optional time
zone; hour 24 only at 24:00:00.000. -/
def parseIsoTime (cs : List Char) :
    Option (Int × Int × Int × Int × Option Int) :=
  if cs.length < 2 then none
  else
    let res :=
      match cs.head? with
      | some c0 =>
        if isTzStart c0 then
          (parseTzStr cs).map (fun tz => ((0 : Int), (0 : Int), (0 : Int), (0 : Int), some tz))
        else
          match pyInt (sliceN cs 0 2) with
          | none => none
          | some h => isoTimeFromMinute cs 2 h
      | none => none
    match res with
    | none => none
    | some (h, mi, s, us, tz) =>
      if h = 24 ∧ ¬ (mi = 0 ∧ s = 0 ∧ us = 0) then none
      else some (h, mi, s, us, tz)

/-- `_parse_isodate_common`: `YYYY`, `YYYY-MM`, `YYYY-MM-DD` or `YYYYMMDD`;
returns the three date components and the resume position. -/
def parseIsoDateCommon (cs : List Char) : Option (Int × Int × Int × Nat) :=
  let n := cs.length
  if n < 4 then none
  else
    match pyInt (sliceN cs 0 4) with
    | none => none
    | some y =>
      if n ≤ 4 then some (y, 1, 1, 4)
      else
        let hasSep := cs.get? 4 = some '-'
        let pos := if hasSep then 5 else 4
        if n - pos < 2 then none
        else
          match pyInt (sliceN cs pos 2) with
          | none => none
          | some mo =>
            let pos2 := pos + 2
            if n ≤ pos2 then (if hasSep then some (y, mo, 1, pos2) else none)
            else
              let pos3 := if hasSep then pos2 + 1 else pos2
              if hasSep ∧ cs.get? pos2 ≠ some '-' then none
              else if n - pos3 < 2 then none
              else
                match pyInt (sliceN cs pos3 2) with
                | none => none
                | some d => some (y, mo, d, pos3 + 2)

/-- `_calculate_weekdate`: the date of an ISO year-week-day triple, via
week 1 being the week containing January 4th. -/
def calculateWeekdate (y week day : Int) : Option (Int × Int × Int) :=
  if ¬ (0 < week ∧ week < 54) then none
  else if ¬ (0 < day ∧ day < 8) then none
  else if ¬ (1 ≤ y ∧ y ≤ 9999) then none
  else
    let ordJan4 : Int := Int.ofNat (toOrdinal y.toNat 1 4)
    let isoWd : Int := Int.ofNat (weekdayOf y.toNat 1 4) + 1
    let resOrd : Int := ordJan4 - (isoWd - 1) + (week - 1) * 7 + (day - 1)
    if resOrd < 1 ∨ resOrd > 3652059 then none
    else
      let c := fromOrdinal resOrd.toNat
      some (Int.ofNat c.1, Int.ofNat c.2.1, Int.ofNat c.2.2)

/-- `date(year, 1, 1) + timedelta(days=ordinal_day - 1)` of the ordinal-day
branch of `_parse_isodate_uncommon`. -/
def dateFromOrdinalDay (y od : Int) : Option (Int × Int × Int) :=
  if ¬ (1 ≤ y ∧ y ≤ 9999) then none
  else
    let resOrd : Int := Int.ofNat (toOrdinal y.toNat 1 1) + od - 1
    if resOrd < 1 ∨ resOrd > 3652059 then none
    else
      let c := fromOrdinal resOrd.toNat
      some (Int.ofNat c.1, Int.ofNat c.2.1, Int.ofNat c.2.2)

/-- `_parse_isodate_uncommon`: `YYYY-Www(-D)` / `YYYYWww(D)` ISO week
dates and `YYYY-DDD` / `YYYYDDD` ordinal dates. -/
def parseIsoDateUncommon (cs : List Char) : Option (Int × Int × Int × Nat) :=
  let n := cs.length
  if n < 4 then none
  else
    match pyInt (sliceN cs 0 4) with
    | none => none
    | some y =>
      let hasSep := cs.get? 4 = some '-'
      let pos := if hasSep then 5 else 4
      if cs.get? pos = some 'W' then
        let pos1 := pos + 1
        match pyInt (sliceN cs pos1 2) with
        | none => none
        | some week =>
          let pos2 := pos1 + 2
          if n > pos2 then
            if ((cs.get? pos2 = some '-') : Bool) ≠ hasSep then none
            else
              let pos3 := if hasSep then pos2 + 1 else pos2
              match pyInt (sliceN cs pos3 1) with
              | none => none
              | some dayno =>
                (calculateWeekdate y week dayno).map
                  (fun c => (c.1, c.2.1, c.2.2, pos3 + 1))
          else
            (calculateWeekdate y week 1).map
              (fun c => (c.1, c.2.1, c.2.2, pos2))
      else
        if n - pos < 3 then none
        else
          match pyInt (sliceN cs pos 3) with
          | none => none
          | some od =>
            if od < 1 ∨ od > 365 + (if isLeap y then 1 else 0) then none
            else
              (dateFromOrdinalDay y od).map
                (fun c => (c.1, c.2.1, c.2.2, pos + 3))

/-- `_parse_isodate`: the common formats, falling back to the uncommon
ones on failure. -/
def parseIsoDate (cs : List Char) : Option (Int × Int × Int × Nat) :=
  match parseIsoDateCommon cs with
  | some r => some r
  | none => parseIsoDateUncommon cs

/-- `dateutil.parser.isoparse`: date portion, then optionally any single
separator character and a time portion; hour 24 rolls over to the next
day.  `none` models every raised `ValueError`/`OverflowError`. -/
def isoparse (s : String) : Option PyDateTime :=
  let cs := s.toList
  if cs.any (fun c => c.toNat ≥ 128) then none
  else
    match parseIsoDate cs with
    | none => none
    | some (y, mo, d, pos) =>
      if pos < cs.length then
        match parseIsoTime (cs.drop (pos + 1)) with
        | none => none
        | some (h, mi, sec, us, tz) =>
          if h = 24 then
            match mkDateTime y mo d 0 mi sec us tz with
            | none => none
            | some dt => addOneDay dt
          else mkDateTime y mo d h mi sec us tz
      else mkDateTime y mo d 0 0 0 0 none

/-! ## `email.utils.format_datetime` -/

/-- Zero-padded two-digit rendering (`%02d`). -/
def pad2 (n : Nat) : String :=
  if n < 10 then "0" ++ toString n else toString n

/-- Zero-padded four-digit rendering (`%04d`). -/
def pad4 (n : Nat) : String :=
  if n < 10 then "000" ++ toString n
  else if n < 100 then "00" ++ toString n
  else if n < 1000 then "0" ++ toString n
  else toString n

/-- The weekday abbreviations of `_format_timetuple_and_zone`. -/
def dayNames : List String :=
  ["Mon", "Tue", "Wed", "Thu", "Fri", "Sat", "Sun"]

/-- The month abbreviations of `_format_timetuple_and_zone`. -/
def monthNames : List String :=
  ["Jan", "Feb", "Mar", "Apr", "May", "Jun",
   "Jul", "Aug", "Sep", "Oct", "Nov", "Dec"]

/-- `email.utils.format_datetime(dt)`: RFC 2822/822 rendering
`'%s, %02d %s %04d %02d:%02d:%02d %s'`; the zone is `-0000` for a naive
datetime and the `%z` rendering of the offset otherwise. -/
def formatDatetime (dt : PyDateTime) : String :=
  let zone :=
    match dt.tzMinutes with
    | none => "-0000"
    | some off =>
      (if off < 0 then "-" else "+") ++
        pad2 (off.natAbs / 60) ++ pad2 (off.natAbs % 60)
  (dayNames.getD (weekdayOf dt.year dt.month dt.day) "") ++ ", " ++
    pad2 dt.day ++ " " ++ (monthNames.getD (dt.month - 1) "") ++ " " ++
    pad4 dt.year ++ " " ++ pad2 dt.hour ++ ":" ++ pad2 dt.minute ++ ":" ++
    pad2 dt.second ++ " " ++ zone

example :
    isoparse "2017-06-28T08:15:00.001-07:00" =
      some ⟨2017, 6, 28, 8, 15, 0, 1000, some (-420)⟩ := by decide
example : isoparse "not-a-date" = none := by decide
example : isoparse "2020-01-01T00:00:00Z" =
    some ⟨2020, 1, 1, 0, 0, 0, 0, some 0⟩ := by decide
example :
    formatDatetime ⟨2017, 6, 28, 8, 15, 0, 1000, some (-420)⟩ =
      "Wed, 28 Jun 2017 08:15:00 -0700" := by decide

/-! ## The entry loop of `process_feed` (lines 129-183) -/

/-- The test `if tag and tag.string:` applied to the result of a `find`:
the tag was found, its `.string` is not `None`, and it is non-empty (an
empty `NavigableString` is falsy). -/
def nonEmptyTagString (o : Option Node) : Option String :=
  match o with
  | none => none
  | some t =>
    match tagString t with
    | none => none
    | some s => if s = "" then none else some s

/-- Lines 149-155: `date_str`, from `published_tag.string.strip()` when
`published_tag and published_tag.string`, else from
`updated_tag.string.strip()` when `updated_tag and updated_tag.string`,
else `None`. -/
def entryDateStr (entry : Node) : Option String :=
  match nonEmptyTagString (findFirst (matchesName "published") (childrenOf entry)) with
  | some s => some (pyStrip s)
  | none =>
    match nonEmptyTagString (findFirst (matchesName "updated") (childrenOf entry)) with
    | some s => some (pyStrip s)
    | none => none

/-- Line 157, `if date_str:`: the date string actually used, which must be
non-`None` and non-empty. -/
def usedDateStr (entry : Node) : Option String :=
  match entryDateStr entry with
  | some s => if s = "" then none else some s
  | none => none

/-- Lines 132-137: the optional `<title>` child of the item, emitted when
`entry.find("title")` found a tag, holding its `get_text(strip=True)`. -/
def titlePart (entry : Node) : List Node :=
  match findFirst (matchesName "title") (childrenOf entry) with
  | none => []
  | some t => [Node.elem "title" [] [Node.text (getTextStrip t)]]

/-- Lines 139-144: the optional `<link>` child, emitted when
`entry.find("link", rel="alternate")` found a tag with an `href`
attribute. -/
def linkPart (entry : Node) : List Node :=
  match findFirst (matchesNameRel "link" "alternate") (childrenOf entry) with
  | none => []
  | some l =>
    match attrOf l "href" with
    | none => []
    | some v => [Node.elem "link" [] [Node.text v]]

/-- Lines 157-167: the optional `<pubDate>` child; a date string that
`isoparse` rejects is swallowed by `except Exception: pass`. -/
def pubDatePart (entry : Node) : List Node :=
  match usedDateStr entry with
  | none => []
  | some s =>
    match isoparse s with
    | none => []
    | some dt => [Node.elem "pubDate" [] [Node.text (formatDatetime dt)]]

/-- Lines 169-180: the optional `<content:encoded>` child, emitted when
`content_tag and content_tag.string`, holding the CDATA-wrapped
`content_tag.string`. -/
def contentPart (entry : Node) : List Node :=
  match nonEmptyTagString (findFirst (matchesName "content") (childrenOf entry)) with
  | none => []
  | some s => [Node.elem "content:encoded" [] [Node.text (cdataWrap s)]]

/-- The body of the `for entry in entries:` loop: one `<item>` element per
entry. -/
def processEntry (entry : Node) : Node :=
  Node.elem "item" []
    (titlePart entry ++ linkPart entry ++ pubDatePart entry ++
      contentPart entry)

/-! ## Channel construction (`process_feed` lines 92-183) -/

/-- Line 109: the channel title, `feed_title.get_text(strip=True)` when
`atom_soup.find("title")` found a tag, else the default. -/
def channelTitleValue (root : Node) : String :=
  match findFirst (matchesName "title") [root] with
  | some t => getTextStrip t
  | none => "Atom to RSS Feed"

/-- Line 115: the channel link, `feed_link["href"]` when
`atom_soup.find("link", rel="alternate")` found a tag having `href`, else
the default. -/
def channelLinkValue (root : Node) : String :=
  match findFirst (matchesNameRel "link" "alternate") [root] with
  | some l =>
    match attrOf l "href" with
    | some v => v
    | none => "http://example.com"
  | none => "http://example.com"

/-- Line 121: the channel description from `atom_soup.find("subtitle")`,
else the default. -/
def channelDescValue (root : Node) : String :=
  match findFirst (matchesName "subtitle") [root] with
  | some st => getTextStrip st
  | none => "Converted from Atom feed"

/-- The tree-building core of `process_feed`, applied to the parsed input
document: the `<rss version="2.0">` tree with its single `<channel>`
(title, link, description, then one `<item>` per `entry` found by
`atom_soup.find_all("entry")`), paired with `count_items`. -/
def processFeed (root : Node) : Node × Nat :=
  let entries := findAll (matchesName "entry") [root]
  let channel :=
    Node.elem "channel" []
      ([Node.elem "title" [] [Node.text (channelTitleValue root)],
        Node.elem "link" [] [Node.text (channelLinkValue root)],
        Node.elem "description" [] [Node.text (channelDescValue root)]] ++
        entries.map processEntry)
  (Node.elem "rss"
      [("version", "2.0"),
       ("xmlns:content", "http://purl.org/rss/1.0/modules/content/")]
      [channel],
    entries.length)

/-! ## XML parsing (`process_feed` lines 84-90)

Modelled from the spec: the source parses the input with
`BeautifulSoup(atom_data, "xml")`, a library call whose code is not part of
this repository; per spec step 1 it is a generic well-formed-XML parse that
"fails to parse (malformed XML) surfaces as a ParseError carrying the
underlying message".  The parser below is a strict well-formed-XML
recursive-descent parser (prolog, one root element, attributes, character
data with the predefined and decimal-numeric entity references, CDATA
sections, comments, processing instructions, matching end tags), fuelled
for structural recursion. -/

/-- XML white space. -/
def isXmlWs (c : Char) : Bool :=
  c = ' ' ∨ c = '\t' ∨ c = '\r' ∨ c = '\n'

/-- Characters accepted in element and attribute names. -/
def isNameChar (c : Char) : Bool :=
  c.isAlphanum ∨ c = ':' ∨ c = '_' ∨ c = '-' ∨ c = '.'

/-- Skip past the `-->` that closes a comment. -/
def skipToCommentEnd : List Char → Option (List Char)
  | '-' :: '-' :: '>' :: rest => some rest
  | _ :: rest => skipToCommentEnd rest
  | [] => none

/-- Skip past the `?>` that closes a processing instruction. -/
def skipToPiEnd : List Char → Option (List Char)
  | '?' :: '>' :: rest => some rest
  | _ :: rest => skipToPiEnd rest
  | [] => none

/-- Decode one entity reference after `&`: the five predefined entities or
a decimal character reference. -/
def readEntity (cs : List Char) : Option (Char × List Char) :=
  match cs with
  | 'l' :: 't' :: ';' :: r => some ('<', r)
  | 'g' :: 't' :: ';' :: r => some ('>', r)
  | 'a' :: 'm' :: 'p' :: ';' :: r => some ('&', r)
  | 'q' :: 'u' :: 'o' :: 't' :: ';' :: r => some ('"', r)
  | 'a' :: 'p' :: 'o' :: 's' :: ';' :: r => some (Char.ofNat 39, r)
  | '#' :: r =>
    let ds := r.takeWhile Char.isDigit
    match digitsToNat ds, r.drop ds.length with
    | some v, ';' :: r2 =>
      if v < 55296 ∨ (57344 ≤ v ∧ v < 1114112) then some (Char.ofNat v, r2)
      else none
    | _, _ => none
  | _ => none

/-- Read a run of character data up to the next `<` or the end of input,
decoding entity references. -/
def readTextRun (fuel : Nat) (cs : List Char) (acc : List Char) :
    Except String (List Char × List Char) :=
  match fuel with
  | 0 => .error "internal fuel exhausted"
  | fuel + 1 =>
    match cs with
    | [] => .ok (acc.reverse, [])
    | '<' :: _ => .ok (acc.reverse, cs)
    | '&' :: r =>
      match readEntity r with
      | some (c, r2) => readTextRun fuel r2 (c :: acc)
      | none => .error "invalid entity reference"
    | c :: r => readTextRun fuel r (c :: acc)

/-- Read one quoted attribute value (no raw `<`, entities decoded). -/
def readAttrValue (fuel : Nat) (q : Char) (cs : List Char)
    (acc : List Char) : Except String (String × List Char) :=
  match fuel with
  | 0 => .error "internal fuel exhausted"
  | fuel + 1 =>
    match cs with
    | [] => .error "unexpected end of input"
    | c :: r =>
      if c = q then .ok (String.mk acc.reverse, r)
      else if c = '<' then .error "invalid character in attribute value"
      else if c = '&' then
        match readEntity r with
        | some (d, r2) => readAttrValue fuel q r2 (d :: acc)
        | none => .error "invalid entity reference"
      else readAttrValue fuel q r (c :: acc)

/-- Parse the attribute list of a start tag, stopping before `>` or `/`. -/
def parseAttrs (fuel : Nat) (cs : List Char)
    (acc : List (String × String)) :
    Except String (List (String × String) × List Char) :=
  match fuel with
  | 0 => .error "internal fuel exhausted"
  | fuel + 1 =>
    let cs1 := cs.dropWhile isXmlWs
    match cs1 with
    | [] => .error "unexpected end of input"
    | c :: _ =>
      if c = '>' ∨ c = '/' then .ok (acc.reverse, cs1)
      else
        let nm := cs1.takeWhile isNameChar
        if nm.isEmpty then .error "malformed tag"
        else
          let r1 := (cs1.drop nm.length).dropWhile isXmlWs
          match r1 with
          | '=' :: r2 =>
            let r3 := r2.dropWhile isXmlWs
            match r3 with
            | q :: r4 =>
              if q = '"' ∨ q = Char.ofNat 39 then
                match readAttrValue fuel q r4 [] with
                | .error e => .error e
                | .ok (v, r5) =>
                  parseAttrs fuel r5 ((String.mk nm, v) :: acc)
              else .error "attribute value not quoted"
            | [] => .error "unexpected end of input"
          | _ => .error "attribute syntax error"

/-- Parse element content up to the end tag closing `close`, parsing child
elements inline (name, attributes, then `/>` or `>` + recursive content and
a matching end tag). -/
def parseContentF : Nat → String → List Char → List Node →
    Except String (List Node × List Char)
  | 0, _, _, _ => .error "internal fuel exhausted"
  | fuel + 1, close, cs, acc =>
    match cs with
    | [] => .error "unexpected end of input"
    | '<' :: '/' :: r =>
      let nm := r.takeWhile isNameChar
      if String.mk nm ≠ close then .error "mismatched closing tag"
      else
        match (r.drop nm.length).dropWhile isXmlWs with
        | '>' :: r2 => .ok (acc.reverse, r2)
        | _ => .error "malformed closing tag"
    | '<' :: '!' :: '-' :: '-' :: r =>
      match skipToCommentEnd r with
      | some r2 => parseContentF fuel close r2 acc
      | none => .error "unterminated comment"
    | '<' :: '!' :: rest =>
      match dropCdataHeader ('<' :: '!' :: rest) with
      | some r =>
        match scanCdata r with
        | some (txt, r2) =>
          if txt.isEmpty then parseContentF fuel close r2 acc
          else parseContentF fuel close r2 (Node.text (String.mk txt) :: acc)
        | none => .error "unterminated CDATA section"
      | none => .error "unsupported markup"
    | '<' :: '?' :: r =>
      match skipToPiEnd r with
      | some r2 => parseContentF fuel close r2 acc
      | none => .error "unterminated processing instruction"
    | '<' :: r =>
      let nm := r.takeWhile isNameChar
      if nm.isEmpty then .error "malformed tag"
      else
        match parseAttrs fuel (r.drop nm.length) [] with
        | .error e => .error e
        | .ok (attrs, r1) =>
          match r1 with
          | '/' :: '>' :: r2 =>
            parseContentF fuel close r2
              (Node.elem (String.mk nm) attrs [] :: acc)
          | '>' :: r2 =>
            match parseContentF fuel (String.mk nm) r2 [] with
            | .error e => .error e
            | .ok (children, r3) =>
              parseContentF fuel close r3
                (Node.elem (String.mk nm) attrs children :: acc)
          | _ => .error "malformed tag"
    | _ =>
      match readTextRun fuel cs [] with
      | .error e => .error e
      | .ok (txt, r2) =>
        parseContentF fuel close r2 (Node.text (String.mk txt) :: acc)

/-- Parse the document's root element after its opening `<`. -/
def parseRootElement (fuel : Nat) (cs : List Char) :
    Except String (Node × List Char) :=
  let nm := cs.takeWhile isNameChar
  if nm.isEmpty then .error "malformed tag"
  else
    match parseAttrs fuel (cs.drop nm.length) [] with
    | .error e => .error e
    | .ok (attrs, r1) =>
      match r1 with
      | '/' :: '>' :: r2 => .ok (Node.elem (String.mk nm) attrs [], r2)
      | '>' :: r2 =>
        match parseContentF fuel (String.mk nm) r2 [] with
        | .error e => .error e
        | .ok (children, r3) =>
          .ok (Node.elem (String.mk nm) attrs children, r3)
      | _ => .error "malformed tag"

/-- Skip white space, comments and processing instructions (the XML
prolog/epilog `Misc` production). -/
def skipMisc (fuel : Nat) (cs : List Char) : Except String (List Char) :=
  match fuel with
  | 0 => .error "internal fuel exhausted"
  | fuel + 1 =>
    let cs1 := cs.dropWhile isXmlWs
    match cs1 with
    | '<' :: '!' :: '-' :: '-' :: r =>
      match skipToCommentEnd r with
      | some r2 => skipMisc fuel r2
      | none => .error "unterminated comment"
    | '<' :: '?' :: r =>
      match skipToPiEnd r with
      | some r2 => skipMisc fuel r2
      | none => .error "unterminated processing instruction"
    | _ => .ok cs1

/-- Modelled from the spec: the `BeautifulSoup(atom_data, "xml")` library
call of line 86, whose implementation is not part of this repository, as a
strict well-formed-XML parse of the whole input into a document tree,
failing with a message on malformed input. -/
def parseXML (s : String) : Except String Node :=
  let cs := s.toList
  let fuel := cs.length + 8
  match skipMisc fuel cs with
  | .error e => .error e
  | .ok cs1 =>
    match cs1 with
    | [] => .error "no element found"
    | '<' :: '/' :: _ => .error "malformed tag"
    | '<' :: '!' :: _ => .error "unsupported markup"
    | '<' :: r =>
      match parseRootElement fuel r with
      | .error e => .error e
      | .ok (root, rest) =>
        match skipMisc fuel rest with
        | .error e => .error e
        | .ok rest1 =>
          if rest1.isEmpty then .ok root
          else .error "junk after document element"
    | _ => .error "text outside root element"

/-- The failure reported by lines 84-90: a parse error carrying the
underlying message. -/
inductive TransformError where
  | parseError : String → TransformError
deriving DecidableEq, Repr

/-- The whole transform: parse the Atom text, then build the RSS tree and
the item count; a parse failure aborts with a `ParseError` and produces no
output. -/
def transform (s : String) : Except TransformError (Node × Nat) :=
  match parseXML s with
  | .error msg => .error (.parseError msg)
  | .ok root => .ok (processFeed root)

/-! ## Output accessors used by the statements -/

/-- The first direct child element named `nm`. -/
def childElem (nm : String) (n : Node) : Option Node :=
  (childrenOf n).find? (matchesName nm)

/-- The `.string` of the first direct child element named `nm`. -/
def childElemText (nm : String) (n : Node) : Option String :=
  (childElem nm n).bind tagString

/-- Whether a direct child element named `nm` exists. -/
def hasChildElem (nm : String) (n : Node) : Bool :=
  (childElem nm n).isSome

/-! ## Auxiliary definitions for the statements and proofs -/

/-- Whether a character list starts with the CDATA terminator `]]>`. -/
def startsTerm (l : List Char) : Bool :=
  l.take 3 = [']', ']', '>']

/-- Whether a character list starts with `]>`. -/
def startsBracketGt (l : List Char) : Bool :=
  l.take 2 = [']', '>']

/-- An entry whose `published` text is the example date of the spec. -/
def entryIsoDate : Node :=
  Node.elem "entry" []
    [Node.elem "published" [] [Node.text "2017-06-28T08:15:00.001-07:00"]]

/-- An entry with unparseable `published` text. -/
def entryNotADate : Node :=
  Node.elem "entry" [] [Node.elem "published" [] [Node.text "not-a-date"]]

/-- An entry with white-space-only `published` text and a parseable
`updated` text. -/
def entryWsPublished : Node :=
  Node.elem "entry" []
    [Node.elem "published" [] [Node.text " "],
     Node.elem "updated" [] [Node.text "2020-01-01T00:00:00Z"]]

/-- An entry whose only field is a white-space-only `title`. -/
def entryWsTitle : Node :=
  Node.elem "entry" [] [Node.elem "title" [] [Node.text " "]]

/-- An entry whose `content` holds its text inside a sole child element. -/
def entryWrappedContent : Node :=
  Node.elem "entry" []
    [Node.elem "content" [] [Node.elem "div" [] [Node.text "x"]]]

/-- A feed whose only `title` has white-space-only text. -/
def feedWsTitle : Node :=
  Node.elem "feed" [] [Node.elem "title" [] [Node.text "   "]]

/-- An entry whose `title` sits at depth two, inside a `source` element. -/
def entryDeepTitle : Node :=
  Node.elem "entry" []
    [Node.elem "source" [] [Node.elem "title" [] [Node.text "Deep"]]]

/-! ## Traversal lemmas -/

theorem descList_append (xs ys : List Node) :
    descList (xs ++ ys) = descList xs ++ descList ys := by
  induction xs with
  | nil => simp [descList]
  | cons x t ih =>
    cases x with
    | text s => simp [descList, ih]
    | elem n a ch => simp [descList, ih]

theorem findFirst_eq_find? (p : Node → Bool) (cs : List Node) :
    findFirst p cs = (descList cs).find? p := by
  induction cs using findFirst.induct p
  case case6 n a ch cs hp hall ih2 ih1 =>
    simp_all [findFirst, descList, List.find?, List.find?_append]
    rcases List.find? p (descList ch) with - | r <;> simp [Option.or]
  all_goals simp_all [findFirst, descList, List.find?, List.find?_append]

theorem findAll_eq_filter (p : Node → Bool) (cs : List Node) :
    findAll p cs = (descList cs).filter p := by
  induction cs using findAll.induct p
  case case2 s cs ih =>
    cases hp : p (Node.text s) <;>
      simp_all [findAll, descList, List.filter]
  case case3 n a ch cs ih1 ih2 =>
    cases hp : p (Node.elem n a ch) <;>
      simp_all [findAll, descList, List.filter, List.filter_append]
  all_goals simp_all [findAll, descList, List.filter]

theorem findAll_append (p : Node → Bool) (xs ys : List Node) :
    findAll p (xs ++ ys) = findAll p xs ++ findAll p ys := by
  simp [findAll_eq_filter, descList_append, List.filter_append]

theorem findFirst_pred (p : Node → Bool) (cs : List Node) (r : Node)
    (h : findFirst p cs = some r) : p r := by
  rw [findFirst_eq_find?] at h
  exact List.find?_some h

/-! ## Shape of the item parts -/

theorem titlePart_shape (e : Node) :
    ∀ x ∈ titlePart e, ∃ s, x = Node.elem "title" [] [Node.text s] := by
  unfold titlePart
  cases findFirst (matchesName "title") (childrenOf e) <;> simp

theorem linkPart_shape (e : Node) :
    ∀ x ∈ linkPart e, ∃ s, x = Node.elem "link" [] [Node.text s] := by
  unfold linkPart
  cases findFirst (matchesNameRel "link" "alternate") (childrenOf e) with
  | none => simp
  | some l => cases h2 : attrOf l "href" <;> simp [h2]

theorem pubDatePart_shape (e : Node) :
    ∀ x ∈ pubDatePart e, ∃ s, x = Node.elem "pubDate" [] [Node.text s] := by
  unfold pubDatePart
  cases usedDateStr e with
  | none => simp
  | some s => cases h2 : isoparse s <;> simp [h2]

theorem contentPart_shape (e : Node) :
    ∀ x ∈ contentPart e,
      ∃ s, x = Node.elem "content:encoded" [] [Node.text s] := by
  unfold contentPart
  cases nonEmptyTagString (findFirst (matchesName "content") (childrenOf e)) <;>
    simp

theorem part_find?_none (nm tag : String) {part : List Node}
    (hshape : ∀ x ∈ part, ∃ s, x = Node.elem tag [] [Node.text s])
    (hne : tag ≠ nm) : part.find? (matchesName nm) = none := by
  rw [List.find?_eq_none]
  intro x hx
  obtain ⟨s, rfl⟩ := hshape x hx
  simp [matchesName, hne]

theorem part_findAll_item (tag : String) {part : List Node}
    (hshape : ∀ x ∈ part, ∃ s, x = Node.elem tag [] [Node.text s])
    (hne : tag ≠ "item") : findAll (matchesName "item") part = [] := by
  induction part with
  | nil => simp [findAll]
  | cons x t ih =>
    obtain ⟨s, rfl⟩ := hshape x (List.mem_cons_self x t)
    simp [findAll, matchesName, hne,
      ih (fun y hy => hshape y (List.mem_cons_of_mem _ hy))]

/-! ## The children of a produced item -/

theorem childElem_parts (nm : String) (e : Node) :
    childElem nm (processEntry e) =
      ((((titlePart e).find? (matchesName nm)).or
        ((linkPart e).find? (matchesName nm))).or
        ((pubDatePart e).find? (matchesName nm))).or
        ((contentPart e).find? (matchesName nm)) := by
  rw [show childElem nm (processEntry e) =
      ((titlePart e ++ linkPart e ++ pubDatePart e ++ contentPart e).find?
        (matchesName nm)) from rfl]
  rw [List.find?_append, List.find?_append, List.find?_append]

theorem childElem_processEntry_title (e : Node) :
    childElem "title" (processEntry e) =
      (findFirst (matchesName "title") (childrenOf e)).map
        (fun t => Node.elem "title" [] [Node.text (getTextStrip t)]) := by
  rw [childElem_parts,
    part_find?_none "title" "link" (linkPart_shape e) (by decide),
    part_find?_none "title" "pubDate" (pubDatePart_shape e) (by decide),
    part_find?_none "title" "content:encoded" (contentPart_shape e) (by decide)]
  cases h : findFirst (matchesName "title") (childrenOf e) with
  | none => simp only [titlePart, h]; rfl
  | some t =>
    simp only [titlePart, h]
    simp [List.find?, matchesName, Option.or]

theorem childElem_processEntry_link (e : Node) :
    childElem "link" (processEntry e) =
      ((findFirst (matchesNameRel "link" "alternate") (childrenOf e)).bind
        (fun l => attrOf l "href")).map
          (fun v => Node.elem "link" [] [Node.text v]) := by
  rw [childElem_parts,
    part_find?_none "link" "title" (titlePart_shape e) (by decide),
    part_find?_none "link" "pubDate" (pubDatePart_shape e) (by decide),
    part_find?_none "link" "content:encoded" (contentPart_shape e) (by decide)]
  cases h : findFirst (matchesNameRel "link" "alternate") (childrenOf e) with
  | none => simp only [linkPart, h]; rfl
  | some l =>
    cases h2 : attrOf l "href" with
    | none => simp only [linkPart, h, h2]; simp [h2, List.find?]
    | some v =>
      simp only [linkPart, h, h2]
      simp [List.find?, matchesName, Option.or, h2]

theorem childElem_processEntry_pubDate (e : Node) :
    childElem "pubDate" (processEntry e) =
      ((usedDateStr e).bind (fun s => isoparse s)).map
        (fun dt => Node.elem "pubDate" [] [Node.text (formatDatetime dt)]) := by
  rw [childElem_parts,
    part_find?_none "pubDate" "title" (titlePart_shape e) (by decide),
    part_find?_none "pubDate" "link" (linkPart_shape e) (by decide),
    part_find?_none "pubDate" "content:encoded" (contentPart_shape e)
      (by decide)]
  cases h : usedDateStr e with
  | none => simp only [pubDatePart, h]; rfl
  | some s =>
    cases h2 : isoparse s with
    | none => simp only [pubDatePart, h, h2]; simp [h2, List.find?]
    | some dt =>
      simp only [pubDatePart, h, h2]
      simp [List.find?, matchesName, Option.or, h2]

theorem childElem_processEntry_content (e : Node) :
    childElem "content:encoded" (processEntry e) =
      (nonEmptyTagString (findFirst (matchesName "content") (childrenOf e))).map
        (fun s => Node.elem "content:encoded" [] [Node.text (cdataWrap s)]) := by
  rw [childElem_parts,
    part_find?_none "content:encoded" "title" (titlePart_shape e) (by decide),
    part_find?_none "content:encoded" "link" (linkPart_shape e) (by decide),
    part_find?_none "content:encoded" "pubDate" (pubDatePart_shape e)
      (by decide)]
  cases h : nonEmptyTagString
      (findFirst (matchesName "content") (childrenOf e)) with
  | none => simp only [contentPart, h]; rfl
  | some s =>
    simp only [contentPart, h]
    simp [List.find?, matchesName, Option.or]

/-! ## Round trip of the CDATA wrapping -/

theorem startsTerm_cons (c : Char) (y : List Char) :
    startsTerm (c :: y) = (decide (c = ']') && startsBracketGt y) := by
  rcases y with - | ⟨a, y2⟩
  · simp [startsTerm, startsBracketGt]
  rcases y2 with - | ⟨b, y3⟩
  · simp [startsTerm, startsBracketGt]
  · simp [startsTerm, startsBracketGt, List.take]

theorem escapeCdata_cons (c : Char) (rest : List Char)
    (h : startsTerm (c :: rest) = false) :
    escapeCdata (c :: rest) = c :: escapeCdata rest := by
  rw [escapeCdata.eq_def]
  split
  next rest2 heq =>
    rw [heq] at h
    simp [startsTerm] at h
  next c2 rest2 heq =>
    injection heq with h1 h2
    subst h1; subst h2; rfl
  next heq =>
    simp at heq

theorem scanCdata_cons (c : Char) (y : List Char)
    (h : startsTerm (c :: y) = false) :
    scanCdata (c :: y) = (scanCdata y).map (fun p => (c :: p.1, p.2)) := by
  rw [scanCdata.eq_def]
  split
  next rest heq =>
    rw [heq] at h
    simp [startsTerm] at h
  next c2 rest heq =>
    injection heq with h1 h2
    subst h1; subst h2; rfl
  next heq =>
    simp at heq

theorem startsTerm_elim {l : List Char} (h : startsTerm l = true) :
    ∃ t, l = ']' :: ']' :: '>' :: t := by
  rcases l with - | ⟨a, l2⟩
  · simp [startsTerm] at h
  rcases l2 with - | ⟨b, l3⟩
  · simp [startsTerm, List.take] at h
  rcases l3 with - | ⟨c, l4⟩
  · simp [startsTerm, List.take] at h
  · simp [startsTerm, List.take] at h
    exact ⟨l4, by rw [h.1, h.2.1, h.2.2]⟩

theorem startsTerm_not {l : List Char}
    (h : ∀ t : List Char, l ≠ ']' :: ']' :: '>' :: t) :
    startsTerm l = false := by
  cases hx : startsTerm l
  · rfl
  · obtain ⟨t, ht⟩ := startsTerm_elim hx
    exact absurd ht (h t)

theorem startsBracketGt_cons (c : Char) (y : List Char) :
    startsBracketGt (c :: y) =
      (decide (c = ']') && decide (y.head? = some '>')) := by
  rcases y with - | ⟨b, t⟩
  · simp [startsBracketGt, List.take]
  · simp [startsBracketGt, List.take]

theorem escape_append_head (r : List Char) :
    (escapeCdata r ++ cdataTerm).head? = some (r.head?.getD ']') := by
  rcases r with - | ⟨a, r2⟩
  · simp [escapeCdata, cdataTerm]
  by_cases h : startsTerm (a :: r2) = true
  · obtain ⟨t, heq⟩ := startsTerm_elim h
    rw [heq]
    rw [show escapeCdata (']' :: ']' :: '>' :: t) =
      ']' :: ']' :: ']' :: ']' :: '>' :: '<' :: '!' :: '[' :: 'C' :: 'D' ::
        'A' :: 'T' :: 'A' :: '[' :: '>' :: escapeCdata t
      from by simp [escapeCdata]]
    simp
  · have h2 : startsTerm (a :: r2) = false := by
      cases hx : startsTerm (a :: r2)
      · rfl
      · exact absurd hx h
    rw [escapeCdata_cons a r2 h2]
    simp

theorem startsBracketGt_escape (r : List Char) :
    startsBracketGt (escapeCdata r ++ cdataTerm) = startsBracketGt r := by
  rcases r with - | ⟨a, r2⟩
  · simp [escapeCdata, cdataTerm, startsBracketGt, List.take]
  by_cases h : startsTerm (a :: r2) = true
  · obtain ⟨t, heq⟩ := startsTerm_elim h
    rw [heq]
    rw [show escapeCdata (']' :: ']' :: '>' :: t) =
      ']' :: ']' :: ']' :: ']' :: '>' :: '<' :: '!' :: '[' :: 'C' :: 'D' ::
        'A' :: 'T' :: 'A' :: '[' :: '>' :: escapeCdata t
      from by simp [escapeCdata]]
    simp [startsBracketGt, List.take]
  · have h2 : startsTerm (a :: r2) = false := by
      cases hx : startsTerm (a :: r2)
      · rfl
      · exact absurd hx h
    rw [escapeCdata_cons a r2 h2]
    rw [show ((a :: escapeCdata r2) ++ cdataTerm) =
      a :: (escapeCdata r2 ++ cdataTerm) from rfl]
    rw [startsBracketGt_cons, startsBracketGt_cons, escape_append_head]
    congr 1
    cases hh : r2.head? <;> simp

theorem decodeCdataBody_cons (f : Nat) (c : Char) (y : List Char)
    (h : startsTerm (c :: y) = false) :
    decodeCdataBody f (c :: y) =
      (decodeCdataBody f y).map (fun t => c :: t) := by
  cases f with
  | zero => rfl
  | succ f =>
    simp only [decodeCdataBody]
    rw [scanCdata_cons c y h]
    cases hs : scanCdata y with
    | none => rfl
    | some pr =>
      rcases pr with ⟨cont, r⟩
      cases r with
      | nil => simp
      | cons a t =>
        cases hd : dropCdataHeader (a :: t) with
        | none => simp [hd]
        | some body =>
          simp [hd]
          cases decodeCdataBody f body <;> simp

theorem decodeCdataBody_step (f : Nat) (inp cont r body : List Char)
    (hs : scanCdata inp = some (cont, r)) (hr : r.isEmpty = false)
    (hd : dropCdataHeader r = some body) :
    decodeCdataBody (f + 1) inp =
      (decodeCdataBody f body).map (fun t => cont ++ t) := by
  simp only [decodeCdataBody, hs, hr, hd]
  simp

theorem escape_length (r : List Char) :
    r.length ≤ (escapeCdata r).length := by
  induction r using escapeCdata.induct with
  | case1 rest ih => simp_all [escapeCdata]; omega
  | case2 c rest hne ih =>
    have hst : startsTerm (c :: rest) = false := by
      cases hst : startsTerm (c :: rest)
      · rfl
      · rw [startsTerm_cons] at hst
        simp at hst
        rcases rest with - | ⟨a, y2⟩
        · simp [startsBracketGt] at hst
        rcases y2 with - | ⟨b, y3⟩
        · simp [startsBracketGt, List.take] at hst
        · simp [startsBracketGt, List.take] at hst
          exact (hne y3 hst.1 (by rw [hst.2.1, hst.2.2])).elim
    rw [escapeCdata_cons c rest hst]
    simpa using Nat.succ_le_succ ih
  | case3 => simp [escapeCdata]

theorem decodeBody_escape (l : List Char) :
    ∀ fuel, l.length + 1 ≤ fuel →
      decodeCdataBody fuel (escapeCdata l ++ cdataTerm) = some l := by
  induction l using escapeCdata.induct with
  | case1 rest ih =>
    intro fuel hfuel
    obtain ⟨f, rfl⟩ : ∃ f, fuel = f + 1 := ⟨fuel - 1, by omega⟩
    rw [show (escapeCdata (']' :: ']' :: '>' :: rest) ++ cdataTerm) =
      ']' :: ']' :: ']' :: ']' :: '>' :: '<' :: '!' :: '[' :: 'C' :: 'D' ::
        'A' :: 'T' :: 'A' :: '[' :: '>' :: (escapeCdata rest ++ cdataTerm)
      from by simp [escapeCdata]]
    rw [decodeCdataBody_step f
      (']' :: ']' :: ']' :: ']' :: '>' :: '<' :: '!' :: '[' :: 'C' :: 'D' ::
        'A' :: 'T' :: 'A' :: '[' :: '>' :: (escapeCdata rest ++ cdataTerm))
      [']', ']']
      ('<' :: '!' :: '[' :: 'C' :: 'D' :: 'A' :: 'T' :: 'A' :: '[' :: '>' ::
        (escapeCdata rest ++ cdataTerm))
      ('>' :: (escapeCdata rest ++ cdataTerm)) rfl rfl rfl]
    have hgt : startsTerm ('>' :: (escapeCdata rest ++ cdataTerm)) = false := by
      rw [startsTerm_cons]; simp
    rw [decodeCdataBody_cons f '>' (escapeCdata rest ++ cdataTerm) hgt]
    have hlen : rest.length + 1 ≤ f := by
      simp [List.length] at hfuel
      omega
    rw [ih f hlen]
    simp
  | case2 c rest hne ih =>
    intro fuel hfuel
    have hst : startsTerm (c :: rest) = false := by
      cases hst : startsTerm (c :: rest)
      · rfl
      · rw [startsTerm_cons] at hst
        simp at hst
        rcases rest with - | ⟨a, y2⟩
        · simp [startsBracketGt] at hst
        rcases y2 with - | ⟨b, y3⟩
        · simp [startsBracketGt, List.take] at hst
        · simp [startsBracketGt, List.take] at hst
          exact (hne y3 hst.1 (by rw [hst.2.1, hst.2.2])).elim
    rw [escapeCdata_cons c rest hst]
    rw [show ((c :: escapeCdata rest) ++ cdataTerm) =
      c :: (escapeCdata rest ++ cdataTerm) from rfl]
    have hst2 : startsTerm (c :: (escapeCdata rest ++ cdataTerm)) = false := by
      rw [startsTerm_cons, startsBracketGt_escape, ← startsTerm_cons]
      exact hst
    rw [decodeCdataBody_cons fuel c (escapeCdata rest ++ cdataTerm) hst2]
    have hlen : rest.length + 1 ≤ fuel := by
      simp [List.length] at hfuel
      omega
    rw [ih fuel hlen]
    rfl
  | case3 =>
    intro fuel hfuel
    obtain ⟨f, rfl⟩ : ∃ f, fuel = f + 1 := ⟨fuel - 1, by omega⟩
    rfl

theorem cdataDecode_cdataWrap (s : String) :
    cdataDecode (cdataWrap s) = some s := by
  have hdrop : dropCdataHeader (cdataWrap s).toList =
      some (escapeCdata s.toList ++ cdataTerm) := rfl
  have hesc := escape_length s.toList
  have hfuel : s.toList.length + 1 ≤ (cdataWrap s).length + 1 := by
    rw [show (cdataWrap s).length =
      (cdataHeader ++ escapeCdata s.toList ++ cdataTerm).length from rfl]
    simp [cdataHeader, cdataTerm] at hesc ⊢
    omega
  simp only [cdataDecode, hdrop]
  rw [decodeBody_escape s.toList _ hfuel]
  rfl

/-! ## Remaining helper lemmas -/

theorem tagString_multi (nm : String) (attrs : List (String × String))
    (a b : Node) (rest : List Node) :
    tagString (Node.elem nm attrs (a :: b :: rest)) = none := by
  rw [tagString.eq_def]

theorem tagString_nil (nm : String) (attrs : List (String × String)) :
    tagString (Node.elem nm attrs []) = none := by
  rw [tagString.eq_def]

theorem findAll_item_map (es : List Node) :
    findAll (matchesName "item") (es.map processEntry) = es.map processEntry := by
  induction es with
  | nil => simp [findAll]
  | cons e t ih =>
    rw [List.map_cons,
      show processEntry e = Node.elem "item" []
        (titlePart e ++ linkPart e ++ pubDatePart e ++ contentPart e)
        from rfl]
    simp only [findAll]
    rw [findAll_append, findAll_append, findAll_append,
      part_findAll_item "title" (titlePart_shape e) (by decide),
      part_findAll_item "link" (linkPart_shape e) (by decide),
      part_findAll_item "pubDate" (pubDatePart_shape e) (by decide),
      part_findAll_item "content:encoded" (contentPart_shape e) (by decide)]
    simp [matchesName, ih]

/-! ## The claims -/

/-- Claim C1: for every (parsed) Atom input, the produced RSS tree contains
exactly the converted items, one per `entry` element found in the input and
in the same relative document order, and the reported item count equals the
number of entries. -/
theorem claim_C1 (root : Node) :
    findAll (matchesName "item") [(processFeed root).1] =
      (findAll (matchesName "entry") [root]).map processEntry ∧
    (processFeed root).2 = (findAll (matchesName "entry") [root]).length := by
  refine ⟨?_, rfl⟩
  rw [show (processFeed root).1 = Node.elem "rss"
      [("version", "2.0"),
       ("xmlns:content", "http://purl.org/rss/1.0/modules/content/")]
      [Node.elem "channel" []
        ([Node.elem "title" [] [Node.text (channelTitleValue root)],
          Node.elem "link" [] [Node.text (channelLinkValue root)],
          Node.elem "description" [] [Node.text (channelDescValue root)]] ++
          (findAll (matchesName "entry") [root]).map processEntry)]
    from rfl]
  simp [findAll, matchesName, findAll_append, findAll_item_map]

/-- Claim C2: a parse failure on the input text makes the transform fail
with a `ParseError` carrying the underlying message, and no output is
produced. -/
theorem claim_C2 (s msg : String) (h : parseXML s = .error msg) :
    transform s = .error (.parseError msg) ∧
      ∀ out : Node × Nat, transform s ≠ .ok out := by
  constructor
  · simp only [transform, h]
  · intro out hout
    simp only [transform, h] at hout
    exact Except.noConfusion hout

/-- Witness for claim C2 at the unterminated input `<feed><entry>`. -/
theorem claim_C2_witness :
    transform "<feed><entry>" =
      .error (.parseError "unexpected end of input") :=
  (claim_C2 "<feed><entry>" "unexpected end of input" rfl).1

/-- Claim C10: each entry-local lookup is the first matching node among all
descendants of the entry at any depth, in document order (shown for the
name lookups and the `rel="alternate"` link lookup), and a `title` nested
at depth two is indeed found and used. -/
theorem claim_C10 (entry : Node) (nm : String) :
    findFirst (matchesName nm) (childrenOf entry) =
      (descList (childrenOf entry)).find? (matchesName nm) ∧
    findFirst (matchesNameRel "link" "alternate") (childrenOf entry) =
      (descList (childrenOf entry)).find? (matchesNameRel "link" "alternate") ∧
    titlePart entryDeepTitle = [Node.elem "title" [] [Node.text "Deep"]] := by
  refine ⟨findFirst_eq_find? _ _, findFirst_eq_find? _ _, ?_⟩
  have hf : findFirst (matchesName "title") (childrenOf entryDeepTitle) =
      some (Node.elem "title" [] [Node.text "Deep"]) := by
    simp [entryDeepTitle, childrenOf, findFirst, matchesName]
  have hg : getTextStrip (Node.elem "title" [] [Node.text "Deep"]) =
      "Deep" := by
    have hs : String.join [pyStrip "Deep"] = "Deep" := by decide
    simp [getTextStrip, childrenOf, allStrings, hs]
  have hmt : titlePart entryDeepTitle =
      [Node.elem "title" []
        [Node.text (getTextStrip (Node.elem "title" [] [Node.text "Deep"]))]] := by
    rw [titlePart, hf]
  rw [hmt, hg]

/-- Claim C3: for non-empty content text, the emitted `content:encoded`
text is the CDATA block built by escaping `]]>` as `]]]]><![CDATA[>` and
wrapping in `<![CDATA[ ... ]]>`, and decoding that block per XML
literal-text rules reconstructs the original content text exactly. -/
theorem claim_C3 (s : String) (_h : s ≠ "") :
    cdataDecode (cdataWrap s) = some s ∧
    ∀ entry : Node,
      nonEmptyTagString
        (findFirst (matchesName "content") (childrenOf entry)) = some s →
      childElemText "content:encoded" (processEntry entry) =
        some (cdataWrap s) := by
  refine ⟨cdataDecode_cdataWrap s, fun entry hc => ?_⟩
  simp only [childElemText, childElem_processEntry_content, hc]
  simp [tagString]

/-- Witness for claim C3 at a content text containing `]]>`. -/
theorem claim_C3_witness :
    cdataDecode (cdataWrap "a]]>b") = some "a]]>b" :=
  (claim_C3 "a]]>b" (by decide)).1

/-- Claim C5: the entry date string `2017-06-28T08:15:00.001-07:00` given
as `published` yields the `pubDate` text `Wed, 28 Jun 2017 08:15:00 -0700`,
its RFC 822 rendering of the parsed ISO 8601 value. -/
theorem claim_C5 :
    childElemText "pubDate" (processEntry entryIsoDate) =
      some "Wed, 28 Jun 2017 08:15:00 -0700" ∧
    isoparse "2017-06-28T08:15:00.001-07:00" =
      some ⟨2017, 6, 28, 8, 15, 0, 1000, some (-420)⟩ ∧
    formatDatetime ⟨2017, 6, 28, 8, 15, 0, 1000, some (-420)⟩ =
      "Wed, 28 Jun 2017 08:15:00 -0700" := by
  refine ⟨?_, by decide, by decide⟩
  have hp : pyStrip "2017-06-28T08:15:00.001-07:00" =
      "2017-06-28T08:15:00.001-07:00" := by decide
  have hfp : findFirst (matchesName "published") (childrenOf entryIsoDate) =
      some (Node.elem "published" []
        [Node.text "2017-06-28T08:15:00.001-07:00"]) := by
    simp [entryIsoDate, childrenOf, findFirst, matchesName]
  have hd : usedDateStr entryIsoDate =
      some "2017-06-28T08:15:00.001-07:00" := by
    simp [usedDateStr, entryDateStr, nonEmptyTagString, hfp, tagString, hp]
  simp only [childElemText, childElem_processEntry_pubDate, hd,
    Option.some_bind]
  rw [show isoparse "2017-06-28T08:15:00.001-07:00" =
    some ⟨2017, 6, 28, 8, 15, 0, 1000, some (-420)⟩ from by decide]
  simp [tagString]
  decide

/-- Claim C7: an entry whose selected date string fails to parse as
ISO 8601 gets no `pubDate`, and the conversion still completes with the
full entry count. -/
theorem claim_C7 (entry : Node) (s : String)
    (h1 : usedDateStr entry = some s) (h2 : isoparse s = none) :
    childElemText "pubDate" (processEntry entry) = none ∧
    ∀ root : Node,
      (processFeed root).2 = (findAll (matchesName "entry") [root]).length := by
  refine ⟨?_, fun root => rfl⟩
  simp [childElemText, childElem_processEntry_pubDate, h1, h2]

/-- Witness for claim C7 at `published` text `not-a-date`. -/
theorem claim_C7_witness :
    childElemText "pubDate" (processEntry entryNotADate) = none :=
  (claim_C7 entryNotADate "not-a-date"
    (by
      have hp : pyStrip "not-a-date" = "not-a-date" := by decide
      have hfp : findFirst (matchesName "published")
          (childrenOf entryNotADate) =
          some (Node.elem "published" [] [Node.text "not-a-date"]) := by
        simp [entryNotADate, childrenOf, findFirst, matchesName]
      simp [usedDateStr, entryDateStr, nonEmptyTagString, hfp, tagString, hp])
    (by decide)).1

/-- Counterexample to claim C4 as stated: a feed whose only `title` has
white-space-only text (trimmed text empty) yields an empty channel title,
not the default `"Atom to RSS Feed"`. -/
theorem claim_C4_cex :
    (childElem "channel" (processFeed feedWsTitle).1).bind
      (childElemText "title") = some "" ∧
    getTextStrip (Node.elem "title" [] [Node.text "   "]) = "" ∧
    ("" : String) ≠ "Atom to RSS Feed" := by
  have hp : String.join [pyStrip "   "] = "" := by decide
  have hg : getTextStrip (Node.elem "title" [] [Node.text "   "]) = "" := by
    simp [getTextStrip, childrenOf, allStrings, hp]
  refine ⟨?_, hg, by decide⟩
  have hf : findFirst (matchesName "title") [feedWsTitle] =
      some (Node.elem "title" [] [Node.text "   "]) := by
    simp [feedWsTitle, findFirst, matchesName]
  have hmt : channelTitleValue feedWsTitle =
      getTextStrip (Node.elem "title" [] [Node.text "   "]) := by
    rw [channelTitleValue, hf]
  have ht : channelTitleValue feedWsTitle = "" := by
    rw [hmt, hg]
  have hch : childElem "channel" (processFeed feedWsTitle).1 =
      some (Node.elem "channel" []
        ([Node.elem "title" [] [Node.text (channelTitleValue feedWsTitle)],
          Node.elem "link" [] [Node.text (channelLinkValue feedWsTitle)],
          Node.elem "description" []
            [Node.text (channelDescValue feedWsTitle)]] ++
          (findAll (matchesName "entry") [feedWsTitle]).map processEntry)) :=
    rfl
  rw [hch, Option.some_bind]
  simp [childElemText, childElem, childrenOf, List.find?, matchesName,
    tagString, ht]

/-- Claim C4 as amended: the channel title and description are the trimmed
text of the first `title` / `subtitle` element anywhere under the root, and
default only when that element is absent (a present element with empty
trimmed text yields an empty value, not the default); the channel link is
the `href` of the first `link` with `rel="alternate"`, defaulting when
there is no such link or the first one has no `href`. -/
theorem claim_C4_amended (root : Node) :
    (childElem "channel" (processFeed root).1).bind (childElemText "title") =
      some (((descList [root]).find? (matchesName "title")).elim
        "Atom to RSS Feed" getTextStrip) ∧
    (childElem "channel" (processFeed root).1).bind (childElemText "link") =
      some (match (descList [root]).find?
          (matchesNameRel "link" "alternate") with
        | none => "http://example.com"
        | some l => (attrOf l "href").getD "http://example.com") ∧
    (childElem "channel" (processFeed root).1).bind
        (childElemText "description") =
      some (((descList [root]).find? (matchesName "subtitle")).elim
        "Converted from Atom feed" getTextStrip) := by
  have hch : childElem "channel" (processFeed root).1 =
      some (Node.elem "channel" []
        ([Node.elem "title" [] [Node.text (channelTitleValue root)],
          Node.elem "link" [] [Node.text (channelLinkValue root)],
          Node.elem "description" [] [Node.text (channelDescValue root)]] ++
          (findAll (matchesName "entry") [root]).map processEntry)) := rfl
  refine ⟨?_, ?_, ?_⟩
  · rw [hch, Option.some_bind]
    simp only [childElemText, childElem, childrenOf, List.cons_append,
      List.find?, matchesName]
    simp [tagString, channelTitleValue, findFirst_eq_find?]
    cases h : (descList [root]).find? (matchesName "title") <;> simp [h]
  · rw [hch, Option.some_bind]
    simp only [childElemText, childElem, childrenOf, List.cons_append,
      List.find?, matchesName]
    simp [tagString, channelLinkValue, findFirst_eq_find?]
    cases h : (descList [root]).find? (matchesNameRel "link" "alternate") with
    | none => simp [h]
    | some l =>
      cases ha : attrOf l "href" <;> simp [h, ha]
  · rw [hch, Option.some_bind]
    simp only [childElemText, childElem, childrenOf, List.cons_append,
      List.find?, matchesName]
    simp [tagString, channelDescValue, findFirst_eq_find?]
    cases h : (descList [root]).find? (matchesName "subtitle") <;> simp [h]

/-- Counterexample to claim C6 as stated: an entry whose `published` text
is white-space-only (empty after trimming) does not fall back to the
parseable `updated` value — no `pubDate` is emitted at all, although the
`updated` value would have rendered. -/
theorem claim_C6_cex :
    childElemText "pubDate" (processEntry entryWsPublished) = none ∧
    (isoparse "2020-01-01T00:00:00Z").map formatDatetime =
      some "Wed, 01 Jan 2020 00:00:00 +0000" := by
  refine ⟨?_, by decide⟩
  have hp : pyStrip " " = "" := by decide
  have hfp : findFirst (matchesName "published")
      (childrenOf entryWsPublished) =
      some (Node.elem "published" [] [Node.text " "]) := by
    simp [entryWsPublished, childrenOf, findFirst, matchesName]
  have h : usedDateStr entryWsPublished = none := by
    simp [usedDateStr, entryDateStr, nonEmptyTagString, hfp, tagString, hp]
  simp [childElemText, childElem_processEntry_pubDate, h]

/-- Claim C6 as amended: the `pubDate` text is the RFC 822 rendering of
the parsed date string actually used, where the `published` text (before
trimming) is used whenever it is present and non-empty — even when it
trims to empty, in which case no `pubDate` is emitted — and the `updated`
text is consulted only when `published` is absent or its raw text is
`None`/empty; a selected string that trims to empty or fails to parse
yields no `pubDate`. -/
theorem claim_C6_amended (entry : Node) :
    childElemText "pubDate" (processEntry entry) =
      (usedDateStr entry).bind (fun s => (isoparse s).map formatDatetime) ∧
    usedDateStr entry =
      (match nonEmptyTagString
          (findFirst (matchesName "published") (childrenOf entry)) with
        | some s => some (pyStrip s)
        | none =>
          (nonEmptyTagString
            (findFirst (matchesName "updated") (childrenOf entry))).map
              pyStrip).bind
        (fun s => if s = "" then none else some s) := by
  constructor
  · simp only [childElemText, childElem_processEntry_pubDate]
    cases h : usedDateStr entry with
    | none => simp
    | some s =>
      simp only [Option.some_bind]
      cases hiso : isoparse s <;> simp [hiso, tagString]
  · simp only [usedDateStr, entryDateStr]
    cases h : nonEmptyTagString
        (findFirst (matchesName "published") (childrenOf entry)) with
    | none =>
      cases h2 : nonEmptyTagString
          (findFirst (matchesName "updated") (childrenOf entry)) <;>
        simp [h2]
    | some s => simp

/-- Counterexample to claim C8 as stated: an entry whose only field is a
white-space-only `title` (trimmed text empty) produces an item with an
empty `<title>` placeholder rather than omitting the element. -/
theorem claim_C8_cex :
    processEntry entryWsTitle =
      Node.elem "item" [] [Node.elem "title" [] [Node.text ""]] ∧
    getTextStrip (Node.elem "title" [] [Node.text " "]) = "" := by
  have hp : String.join [pyStrip " "] = "" := by decide
  have hg : getTextStrip (Node.elem "title" [] [Node.text " "]) = "" := by
    simp [getTextStrip, childrenOf, allStrings, hp]
  constructor
  · have hft : findFirst (matchesName "title") (childrenOf entryWsTitle) =
        some (Node.elem "title" [] [Node.text " "]) := by
      simp [entryWsTitle, childrenOf, findFirst, matchesName]
    have hfl : findFirst (matchesNameRel "link" "alternate")
        (childrenOf entryWsTitle) = none := by
      simp [entryWsTitle, childrenOf, findFirst, matchesNameRel,
        matchesName, nodeName, attrOf]
    have hfp : findFirst (matchesName "published")
        (childrenOf entryWsTitle) = none := by
      simp [entryWsTitle, childrenOf, findFirst, matchesName]
    have hfu : findFirst (matchesName "updated")
        (childrenOf entryWsTitle) = none := by
      simp [entryWsTitle, childrenOf, findFirst, matchesName]
    have hfc : findFirst (matchesName "content")
        (childrenOf entryWsTitle) = none := by
      simp [entryWsTitle, childrenOf, findFirst, matchesName]
    have hmt : titlePart entryWsTitle =
        [Node.elem "title" []
          [Node.text (getTextStrip (Node.elem "title" [] [Node.text " "]))]] := by
      rw [titlePart, hft]
    rw [show processEntry entryWsTitle = Node.elem "item" []
        (titlePart entryWsTitle ++ linkPart entryWsTitle ++
          pubDatePart entryWsTitle ++ contentPart entryWsTitle) from rfl,
      hmt, hg]
    simp [linkPart, pubDatePart, contentPart, usedDateStr, entryDateStr,
      nonEmptyTagString, hfl, hfp, hfu, hfc]
  · exact hg

/-- Claim C8 as amended: every entry yields a counted `item`; the item's
`title` is present iff a `title` element was found at all (even with empty
text, yielding an empty placeholder), its `link` iff the first
`rel="alternate"` link has an `href` attribute (whatever its value), and
its `content:encoded` iff the `content` element's `.string` is present and
non-empty. -/
theorem claim_C8_amended (entry : Node) :
    nodeName (processEntry entry) = some "item" ∧
    hasChildElem "title" (processEntry entry) =
      (findFirst (matchesName "title") (childrenOf entry)).isSome ∧
    hasChildElem "link" (processEntry entry) =
      ((findFirst (matchesNameRel "link" "alternate")
        (childrenOf entry)).bind (fun l => attrOf l "href")).isSome ∧
    hasChildElem "content:encoded" (processEntry entry) =
      (nonEmptyTagString
        (findFirst (matchesName "content") (childrenOf entry))).isSome ∧
    ∀ root : Node,
      (processFeed root).2 = (findAll (matchesName "entry") [root]).length := by
  refine ⟨rfl, ?_, ?_, ?_, fun root => rfl⟩
  · simp [hasChildElem, childElem_processEntry_title]
  · simp only [hasChildElem, childElem_processEntry_link]
    cases h : findFirst (matchesNameRel "link" "alternate")
        (childrenOf entry) with
    | none => simp
    | some l => cases ha : attrOf l "href" <;> simp [ha]
  · simp [hasChildElem, childElem_processEntry_content]

/-- Counterexample to claim C9 as stated: a `content` element holding its
text inside a sole child element (child elements present, so not a single
text node directly) still emits `content:encoded`, because `.string`
follows chains of sole children. -/
theorem claim_C9_cex :
    childElemText "content:encoded" (processEntry entryWrappedContent) =
      some "<![CDATA[x]]>" ∧
    childrenOf (Node.elem "content" [] [Node.elem "div" [] [Node.text "x"]]) =
      [Node.elem "div" [] [Node.text "x"]] := by
  refine ⟨?_, rfl⟩
  have hw : cdataWrap "x" = "<![CDATA[x]]>" := by decide
  have hfc : findFirst (matchesName "content")
      (childrenOf entryWrappedContent) =
      some (Node.elem "content" [] [Node.elem "div" [] [Node.text "x"]]) := by
    simp [entryWrappedContent, childrenOf, findFirst, matchesName]
  simp [childElemText, childElem_processEntry_content, hfc,
    nonEmptyTagString, tagString, hw]

/-- Claim C9 as amended: `content:encoded` is emitted exactly when the
found `content` element's `.string` — the text reached through a chain of
sole children — exists and is non-empty; in particular it is omitted when
the `content` element has zero or at least two children, but a content
wrapped in a sole child element still emits. -/
theorem claim_C9_amended (entry c : Node)
    (hc : findFirst (matchesName "content") (childrenOf entry) = some c) :
    childElemText "content:encoded" (processEntry entry) =
      ((tagString c).bind
        (fun s => if s = "" then none else some s)).map cdataWrap ∧
    (∀ a b rest, childrenOf c = a :: b :: rest →
      childElemText "content:encoded" (processEntry entry) = none) ∧
    (childrenOf c = [] →
      childElemText "content:encoded" (processEntry entry) = none) := by
  have hmain : childElemText "content:encoded" (processEntry entry) =
      ((tagString c).bind
        (fun s => if s = "" then none else some s)).map cdataWrap := by
    simp only [childElemText, childElem_processEntry_content, hc,
      nonEmptyTagString]
    cases ht : tagString c with
    | none => simp
    | some s =>
      by_cases hs : s = "" <;> simp [hs, tagString]
  obtain ⟨nm, attrs, ch, rfl⟩ :
      ∃ nm attrs ch, c = Node.elem nm attrs ch := by
    have hpred := findFirst_pred _ _ _ hc
    cases c with
    | text s => simp [matchesName] at hpred
    | elem nm a ch => exact ⟨nm, a, ch, rfl⟩
  refine ⟨hmain, ?_, ?_⟩
  · intro a b rest hcc
    rw [show childrenOf (Node.elem nm attrs ch) = ch from rfl] at hcc
    subst hcc
    rw [hmain, tagString_multi]
    rfl
  · intro hcc
    rw [show childrenOf (Node.elem nm attrs ch) = ch from rfl] at hcc
    subst hcc
    rw [hmain, tagString_nil]
    rfl

/-- Witness for claim C9 as amended, at a `content` wrapped in a sole
child element. -/
theorem claim_C9_amended_witness :
    childElemText "content:encoded" (processEntry entryWrappedContent) =
      ((tagString (Node.elem "content" []
          [Node.elem "div" [] [Node.text "x"]])).bind
        (fun s => if s = "" then none else some s)).map cdataWrap :=
  (claim_C9_amended entryWrappedContent
    (Node.elem "content" [] [Node.elem "div" [] [Node.text "x"]])
    (by simp [entryWrappedContent, childrenOf, findFirst, matchesName])).1
